import Mathlib

/-!
Shallow embedding of the tk_chill_shop backend (src/server.js and the
second server file src/unnamed/part_000).

The server persists a single JSON array of user records.  Every endpoint
reads the whole array, resolves/creates a record, mutates it, and writes
the whole array back.  We model the store as an explicit `List UserRecord`
threaded through each handler, and record in a `wrote` flag whether the
handler called `writeUsers` (i.e. rewrote the file).

Cart items are opaque to the server (no per-item validation; shapes are
persisted verbatim), so they are modelled as atoms.  JavaScript truthiness
on the string-valued fields that the server actually tests (`!email`, the
`a || b` coalescing chains) is modelled on `Option String`: `none` is a
missing field and `some ""` is falsy.
-/

namespace TkChillShop

/-- Cart items are opaque to the server: it never inspects an item. -/
abbrev CartItem := String

/-- One record of users.json (DATA MODEL `UserRecord` in the spec). -/
structure UserRecord where
  id : String
  name : String
  email : String
  password : String
  cart : List CartItem
deriving Repr, DecidableEq

/-- Default record used to totalise list indexing; never observable on the
paths proved below because every produced index is in bounds. -/
def emptyRec : UserRecord :=
  { id := "", name := "", email := "", password := "", cart := [] }

/-- JavaScript truthiness of the string fields the server tests:
a missing field and the empty string are falsy. -/
def jsTruthy : Option String → Bool
  | none => false
  | some s => s ≠ ""

/-- `a || b || ...` over string-valued optional fields: first truthy value. -/
def firstTruthy : List (Option String) → Option String
  | [] => none
  | x :: xs => if jsTruthy x then x else firstTruthy xs

/-- The provider-shaped profile embedded in a session identity.  Only the
fields the server reads are modelled; `emailsHeadValue` stands for the
chain `profile.emails && profile.emails[0] && profile.emails[0].value`
(`none` when any link is missing).  `altId` stands for `profile._id`. -/
structure Profile where
  emailsHeadValue : Option String
  email : Option String
  id : Option String
  altId : Option String
  displayName : Option String
  name : Option String
  username : Option String
deriving Repr, DecidableEq

/-- The session principal: `{ provider, profile, accessToken }`. -/
structure SessionIdentity where
  provider : String
  profile : Profile
deriving Repr, DecidableEq

/-- `const email = (profile && ((profile.emails && profile.emails[0] &&
profile.emails[0].value) || profile.email)) || ''` -/
def extractEmail (p : Profile) : String :=
  (firstTruthy [p.emailsHeadValue, p.email]).getD ""

/-- `const profileId = (profile && (profile.id || profile._id)) || ''` -/
def extractProfileId (p : Profile) : String :=
  (firstTruthy [p.id, p.altId]).getD ""

/-- `profile.displayName || profile.name || profile.username || 'User'` -/
def extractName (p : Profile) : String :=
  (firstTruthy [p.displayName, p.name, p.username]).getD "User"

/-- `Array.prototype.findIndex`: index of the first element satisfying
`pred`, or `none`. -/
def findIndex (pred : UserRecord → Bool) : List UserRecord → Option Nat
  | [] => none
  | u :: rest => if pred u then some 0 else (findIndex pred rest).map (· + 1)

/-- Result of `getOrCreateUserRecord`: the resolved record, the full store
array, the record's index, plus whether `writeUsers` was called. -/
structure Resolved where
  user : UserRecord
  users : List UserRecord
  index : Nat
  wrote : Bool
deriving Repr, DecidableEq

/-- The index resolution of `getOrCreateUserRecord`:
`if (email) idx = users.findIndex(u => u.email === email);`
`if (idx === -1 && profileId) idx = users.findIndex(u => String(u.id) === String(profileId));` -/
def resolveIdx (store : List UserRecord) (email profileId : String) : Option Nat :=
  match (if email ≠ "" then findIndex (fun u => u.email == email) store else none) with
  | some i => some i
  | none =>
      if profileId ≠ "" then findIndex (fun u => u.id == profileId) store
      else none

/-- The record synthesized by `getOrCreateUserRecord` when no existing
record matches: id from the profile id or else the timestamp, coalesced
display name defaulting to "User", the extracted email (possibly empty),
an empty password and an empty cart. -/
def freshRec (now : Nat) (p : Profile) : UserRecord :=
  { id := if extractProfileId p ≠ "" then extractProfileId p else toString now
    name := extractName p
    email := extractEmail p
    password := ""
    cart := [] }

/-- `getOrCreateUserRecord(sessionUser)` (src/server.js lines 98-120).
`now` models `Date.now()`.  The email search runs only when the extracted
email is truthy; the id search only when the email search failed and the
profile id is truthy; otherwise a fresh record with an empty cart and empty
password is appended and the store persisted. -/
def getOrCreateUserRecord (now : Nat) (store : List UserRecord) (p : Profile) :
    Resolved :=
  match resolveIdx store (extractEmail p) (extractProfileId p) with
  | some i =>
      { user := store.getD i emptyRec, users := store, index := i, wrote := false }
  | none =>
      { user := freshRec now p, users := store ++ [freshRec now p],
        index := store.length, wrote := true }

/-- Resolution entry point on a session identity: a `SessionIdentity`
always has a truthy `profile`, so `sessionUser && sessionUser.profile ?
sessionUser.profile : sessionUser` selects the embedded profile. -/
def resolveSession (now : Nat) (store : List UserRecord) (s : SessionIdentity) :
    Resolved :=
  getOrCreateUserRecord now store s.profile

/-- Response of POST /api/register. -/
structure RegisterOut where
  status : Nat
  user : Option UserRecord
  store : List UserRecord
  wrote : Bool
deriving Repr, DecidableEq

/-- POST /api/register (src/server.js lines 124-151): 400 when any of
name/email/password is missing or empty, 409 when some record already has
the email, otherwise append a new record and persist. -/
def register (now : Nat) (store : List UserRecord)
    (name email password : Option String) : RegisterOut :=
  if !(jsTruthy name && jsTruthy email && jsTruthy password) then
    { status := 400, user := none, store := store, wrote := false }
  else if store.any (fun u => u.email == email.getD "") then
    { status := 409, user := none, store := store, wrote := false }
  else
    let newUser : UserRecord :=
      { id := toString now, name := name.getD "", email := email.getD ""
        password := password.getD "", cart := [] }
    { status := 200, user := some newUser, store := store ++ [newUser],
      wrote := true }

/-- Response of POST /api/login. -/
structure LoginOut where
  status : Nat
  user : Option UserRecord
deriving Repr, DecidableEq

/-- POST /api/login (src/server.js lines 154-171): 400 when email or
password is missing or empty; otherwise find the first record matching
both fields by exact string equality; 401 when none matches.  The store is
never mutated. -/
def login (store : List UserRecord) (email password : Option String) :
    LoginOut :=
  if !(jsTruthy email && jsTruthy password) then
    { status := 400, user := none }
  else
    match store.find?
        (fun u => u.email == email.getD "" && u.password == password.getD "") with
    | some u => { status := 200, user := some u }
    | none => { status := 401, user := none }

/-- The `cart` field of the POST /api/cart body: absent, present but not an
array, or an array of (opaque) items. -/
inductive BodyCart where
  | absent : BodyCart
  | nonArray : BodyCart
  | arrayOf : List CartItem → BodyCart
deriving Repr, DecidableEq

/-- `Array.isArray(req.body.cart) ? req.body.cart : []` -/
def coerceCart : BodyCart → List CartItem
  | .arrayOf items => items
  | _ => []

/-- Response of GET /api/cart. -/
structure CartGetOut where
  status : Nat
  cart : List CartItem
  store : List UserRecord
  wrote : Bool
deriving Repr, DecidableEq

/-- GET /api/cart (src/server.js lines 183-192): 401 without a session;
otherwise resolve (possibly creating and persisting a record) and return
the record's cart. -/
def cartGet (now : Nat) (store : List UserRecord) (auth : Option Profile) :
    CartGetOut :=
  match auth with
  | none => { status := 401, cart := [], store := store, wrote := false }
  | some p =>
      let r := getOrCreateUserRecord now store p
      { status := 200, cart := r.user.cart, store := r.users, wrote := r.wrote }

/-- Response of POST /api/cart. -/
structure CartPostOut where
  status : Nat
  cart : List CartItem
  store : List UserRecord
  wrote : Bool
deriving Repr, DecidableEq

/-- POST /api/cart (src/server.js lines 195-207): 401 without a session;
otherwise coerce the body's cart to an array, resolve, overwrite the
record's cart unconditionally, persist, and echo the stored cart. -/
def cartPost (now : Nat) (store : List UserRecord) (auth : Option Profile)
    (body : BodyCart) : CartPostOut :=
  match auth with
  | none => { status := 401, cart := [], store := store, wrote := false }
  | some p =>
      let newCart := coerceCart body
      let r := getOrCreateUserRecord now store p
      let users2 :=
        r.users.set r.index { r.users.getD r.index emptyRec with cart := newCart }
      { status := 200, cart := (users2.getD r.index emptyRec).cart,
        store := users2, wrote := true }

/-- Response of POST /api/checkout. -/
structure CheckoutOut where
  status : Nat
  orderId : Option String
  store : List UserRecord
  wrote : Bool
deriving Repr, DecidableEq

/-- POST /api/checkout (src/server.js lines 210-227): 401 without a
session; 400 when the resolved cart is empty; otherwise build the order id
`'ORD-' + Date.now()`, clear the cart, persist, and return the id. -/
def checkout (now : Nat) (store : List UserRecord) (auth : Option Profile) :
    CheckoutOut :=
  match auth with
  | none => { status := 401, orderId := none, store := store, wrote := false }
  | some p =>
      let r := getOrCreateUserRecord now store p
      let cart := (r.users.getD r.index emptyRec).cart
      if cart.isEmpty then
        { status := 400, orderId := none, store := r.users, wrote := r.wrote }
      else
        let users2 :=
          r.users.set r.index { r.users.getD r.index emptyRec with cart := [] }
        { status := 200, orderId := some ("ORD-" ++ toString now),
          store := users2, wrote := true }

/-- What a logout response settles: HTTP status and whether the handler
issued `res.clearCookie` for the session cookie. -/
structure LogoutOut where
  status : Nat
  clearedCookie : Bool
deriving Repr, DecidableEq

/-- POST /api/logout as written in src/server.js lines 174-179: on
`req.logout` failure the error goes to `next(err)` (a 500, no cookie
cleared); otherwise `req.session.destroy(() => res.json({ok:true}))` —
the destroy callback ignores its error argument, so the response is 200
and `res.clearCookie` is never called, whether or not destruction
succeeded. -/
def logoutServer (logoutErr : Bool) (destroyErr : Bool) : LogoutOut :=
  if logoutErr then { status := 500, clearedCookie := false }
  else
    -- destroyErr is deliberately not consulted: the callback drops it
    match destroyErr with
    | _ => { status := 200, clearedCookie := false }

/-- POST /api/logout as written in src/unnamed/part_000 lines 176-201: on
`req.logout` failure the error goes to `next(err)`; otherwise, when a
session exists it is destroyed — on destroy failure the cookie is still
cleared and the status is 500, on success the cookie is cleared with 200;
when no session exists the cookie is cleared with 200. -/
def logoutPart000 (logoutErr : Bool) (hasSession : Bool) (destroyErr : Bool) :
    LogoutOut :=
  if logoutErr then { status := 500, clearedCookie := false }
  else if hasSession then
    if destroyErr then { status := 500, clearedCookie := true }
    else { status := 200, clearedCookie := true }
  else { status := 200, clearedCookie := true }

/-- The property claimed of a logout response: the cookie is cleared
regardless, and a session-destroy failure yields status 500. -/
def logoutClaimHolds (r : LogoutOut) (destroyFailed : Bool) : Prop :=
  r.clearedCookie = true ∧ (destroyFailed = true → r.status = 500)

instance (r : LogoutOut) (b : Bool) : Decidable (logoutClaimHolds r b) := by
  unfold logoutClaimHolds; infer_instance

/-- The uniqueness invariant of the store: at most one record per email,
when the email is non-empty. -/
def emailUnique (store : List UserRecord) : Prop :=
  (store.map (fun u => u.email)).Pairwise (fun a b => a ≠ "" → a ≠ b)

instance (store : List UserRecord) : Decidable (emailUnique store) := by
  unfold emailUnique; infer_instance

/-- A single sequential operation against the store, as named by the
uniqueness claim: register, login, cart get (resolution), cart replace,
checkout.  Each constructor carries the request data the endpoint reads. -/
inductive Op where
  | opRegister (now : Nat) (name email password : Option String) : Op
  | opLogin (email password : Option String) : Op
  | opCartGet (now : Nat) (p : Profile) : Op
  | opCartPost (now : Nat) (p : Profile) (body : BodyCart) : Op
  | opCheckout (now : Nat) (p : Profile) : Op

/-- The store left behind by one operation (the handlers above, run on an
authenticated session for the cart/checkout ones). -/
def applyOp (store : List UserRecord) : Op → List UserRecord
  | .opRegister now n e pw => (register now store n e pw).store
  | .opLogin _ _ => store
  | .opCartGet now p => (cartGet now store (some p)).store
  | .opCartPost now p b => (cartPost now store (some p) b).store
  | .opCheckout now p => (checkout now store (some p)).store

/-! ### Concrete fixtures used by witnesses and counterexamples -/

/-- A locally-registered record. -/
def aliceRec : UserRecord :=
  { id := "1", name := "Alice", email := "alice@example.com", password := "pw1",
    cart := [] }

/-- A locally-registered record with a non-empty cart. -/
def bobRec : UserRecord :=
  { id := "2", name := "Bob", email := "bob@example.com", password := "pw2",
    cart := ["skuA", "skuA", "skuB"] }

/-- A record as created by `getOrCreateUserRecord` for an OAuth identity
whose profile exposes no email: empty email and empty password. -/
def oauthRec : UserRecord :=
  { id := "777", name := "User", email := "", password := "", cart := [] }

/-- An OAuth-style profile carrying an email and a provider id. -/
def eveProfile : Profile :=
  { emailsHeadValue := some "eve@example.com", email := none, id := some "9001",
    altId := none, displayName := some "Eve", name := none, username := none }

/-- The session profile of `aliceRec` (a local login stores the full
record as the profile). -/
def aliceProfile : Profile :=
  { emailsHeadValue := none, email := some "alice@example.com", id := some "1",
    altId := none, displayName := none, name := some "Alice", username := none }

/-- The session profile of `bobRec`. -/
def bobProfile : Profile :=
  { emailsHeadValue := none, email := some "bob@example.com", id := some "2",
    altId := none, displayName := none, name := some "Bob", username := none }

/-- `i` is the index of the first record of `store` satisfying `pred`
(the semantics of `Array.prototype.findIndex` returning `i`). -/
def firstMatch (pred : UserRecord → Bool) (store : List UserRecord) (i : Nat) :
    Prop :=
  i < store.length ∧ pred (store.getD i emptyRec) = true ∧
    ∀ j, j < i → pred (store.getD j emptyRec) = false

/-! ### Helper lemmas on `findIndex` and list indexing -/

theorem findIndex_eq_none_iff (pred : UserRecord → Bool) (l : List UserRecord) :
    findIndex pred l = none ↔ ∀ u ∈ l, pred u = false := by
  induction l with
  | nil => simp [findIndex]
  | cons head tail ih =>
    by_cases h : pred head = true
    · simp [findIndex, h]
    · simp only [Bool.not_eq_true] at h
      simp [findIndex, h, ih]

theorem findIndex_some_lt {pred : UserRecord → Bool} {l : List UserRecord}
    {i : Nat} (h : findIndex pred l = some i) : i < l.length := by
  induction l generalizing i with
  | nil => simp [findIndex] at h
  | cons head tail ih =>
    by_cases hp : pred head = true
    · simp [findIndex, hp] at h
      simp [List.length_cons]
      omega
    · simp only [Bool.not_eq_true] at hp
      simp [findIndex, hp] at h
      obtain ⟨j, hj, rfl⟩ := h
      have := ih hj
      simp [List.length_cons]
      omega

theorem findIndex_some_pred {pred : UserRecord → Bool} {l : List UserRecord}
    {i : Nat} (h : findIndex pred l = some i) :
    pred (l.getD i emptyRec) = true := by
  induction l generalizing i with
  | nil => simp [findIndex] at h
  | cons head tail ih =>
    by_cases hp : pred head = true
    · simp [findIndex, hp] at h
      subst h
      simpa using hp
    · simp only [Bool.not_eq_true] at hp
      simp [findIndex, hp] at h
      obtain ⟨j, hj, rfl⟩ := h
      simpa using ih hj

theorem findIndex_some_first {pred : UserRecord → Bool} {l : List UserRecord}
    {i : Nat} (h : findIndex pred l = some i) :
    ∀ j, j < i → pred (l.getD j emptyRec) = false := by
  induction l generalizing i with
  | nil => simp [findIndex] at h
  | cons head tail ih =>
    by_cases hp : pred head = true
    · simp [findIndex, hp] at h
      omega
    · simp only [Bool.not_eq_true] at hp
      simp [findIndex, hp] at h
      obtain ⟨k, hk, rfl⟩ := h
      intro j hj
      cases j with
      | zero => simpa using hp
      | succ j' =>
        have : j' < k := by omega
        simpa using ih hk j' this

theorem getD_set_self (l : List UserRecord) (i : Nat) (v d : UserRecord)
    (h : i < l.length) : (l.set i v).getD i d = v := by
  induction l generalizing i with
  | nil => simp at h
  | cons head tail ih =>
    cases i with
    | zero => simp
    | succ n =>
      simp only [List.set, List.getD, List.get?]
      have : n < tail.length := by simpa using h
      simpa [List.getD] using ih n this

theorem getD_set_ne (l : List UserRecord) (i j : Nat) (v d : UserRecord)
    (h : i ≠ j) : (l.set i v).getD j d = l.getD j d := by
  induction l generalizing i j with
  | nil => simp
  | cons head tail ih =>
    cases i with
    | zero =>
      cases j with
      | zero => exact absurd rfl h
      | succ m => simp [List.getD]
    | succ n =>
      cases j with
      | zero => simp [List.getD]
      | succ m =>
        have : n ≠ m := by omega
        simpa [List.getD] using ih n m this

theorem getD_append_length (l : List UserRecord) (v d : UserRecord) :
    (l ++ [v]).getD l.length d = v := by
  induction l with
  | nil => simp
  | cons head tail ih => simp [List.getD]

theorem getD_append_lt (l l2 : List UserRecord) (i : Nat) (d : UserRecord)
    (h : i < l.length) : (l ++ l2).getD i d = l.getD i d := by
  induction l generalizing i with
  | nil => simp at h
  | cons head tail ih =>
    cases i with
    | zero => simp
    | succ n =>
      have : n < tail.length := by simpa using h
      simpa [List.getD] using ih n this

/-- `findIndex` is unchanged by replacing one element with another on
which the predicate agrees. -/
theorem findIndex_set (pred : UserRecord → Bool) (l : List UserRecord)
    (i : Nat) (v : UserRecord) (h : pred v = pred (l.getD i emptyRec)) :
    findIndex pred (l.set i v) = findIndex pred l := by
  induction l generalizing i with
  | nil => simp
  | cons head tail ih =>
    cases i with
    | zero =>
      simp only [List.getD, List.get?, Option.getD_some] at h
      simp [findIndex, h]
    | succ n =>
      simp only [List.getD] at h
      simp only [List.set, findIndex]
      rw [ih n (by simpa [List.getD] using h)]

theorem findIndex_append_singleton (pred : UserRecord → Bool)
    (l : List UserRecord) (v : UserRecord) :
    findIndex pred (l ++ [v]) =
      match findIndex pred l with
      | some i => some i
      | none => if pred v then some l.length else none := by
  induction l with
  | nil => simp [findIndex]
  | cons head tail ih =>
    cases hfi : findIndex pred tail with
    | some i =>
        by_cases hp : pred head = true
        · simp [findIndex, hp]
        · simp only [Bool.not_eq_true] at hp
          simp [findIndex, hp, ih, hfi]
    | none =>
        by_cases hp : pred head = true
        · simp [findIndex, hp]
        · simp only [Bool.not_eq_true] at hp
          by_cases hv : pred v = true
          · simp [findIndex, hp, ih, hfi, hv]
          · simp only [Bool.not_eq_true] at hv
            simp [findIndex, hp, ih, hfi, hv]

/-! ### Lemmas about `resolveIdx` and `getOrCreateUserRecord` -/

theorem getOrCreate_found (now : Nat) (store : List UserRecord) (p : Profile)
    (i : Nat) (h : resolveIdx store (extractEmail p) (extractProfileId p) = some i) :
    getOrCreateUserRecord now store p =
      { user := store.getD i emptyRec, users := store, index := i,
        wrote := false } := by
  simp [getOrCreateUserRecord, h]

theorem getOrCreate_missing (now : Nat) (store : List UserRecord) (p : Profile)
    (h : resolveIdx store (extractEmail p) (extractProfileId p) = none) :
    getOrCreateUserRecord now store p =
      { user := freshRec now p, users := store ++ [freshRec now p],
        index := store.length, wrote := true } := by
  simp [getOrCreateUserRecord, h]

/-- Case analysis on a successful index resolution: either the email was
truthy and matched, or the email search failed (empty or no match) and the
truthy profile id matched. -/
theorem resolveIdx_some_cases {store : List UserRecord} {e pid : String}
    {i : Nat} (h : resolveIdx store e pid = some i) :
    (e ≠ "" ∧ findIndex (fun u => u.email == e) store = some i) ∨
      ((e = "" ∨ findIndex (fun u => u.email == e) store = none) ∧
        pid ≠ "" ∧ findIndex (fun u => u.id == pid) store = some i) := by
  unfold resolveIdx at h
  by_cases he : e = ""
  · by_cases hp : pid = ""
    · simp [he, hp] at h
    · simp [he, hp] at h
      exact Or.inr ⟨Or.inl he, hp, h⟩
  · cases hfi : findIndex (fun u => u.email == e) store with
    | some j =>
        simp [he, hfi] at h
        subst h
        exact Or.inl ⟨he, rfl⟩
    | none =>
        by_cases hp : pid = ""
        · simp [he, hfi, hp] at h
        · simp [he, hfi, hp] at h
          exact Or.inr ⟨Or.inr rfl, hp, h⟩

/-- A failed resolution means: the email is empty or unmatched, and the
profile id is empty or unmatched. -/
theorem resolveIdx_none_cases {store : List UserRecord} {e pid : String}
    (h : resolveIdx store e pid = none) :
    (e = "" ∨ findIndex (fun u => u.email == e) store = none) ∧
      (pid = "" ∨ findIndex (fun u => u.id == pid) store = none) := by
  unfold resolveIdx at h
  by_cases he : e = ""
  · by_cases hp : pid = ""
    · exact ⟨Or.inl he, Or.inl hp⟩
    · simp [he, hp] at h
      exact ⟨Or.inl he, Or.inr h⟩
  · cases hfi : findIndex (fun u => u.email == e) store with
    | some j => simp [he, hfi] at h
    | none =>
        by_cases hp : pid = ""
        · exact ⟨Or.inr rfl, Or.inl hp⟩
        · simp [he, hfi, hp] at h
          exact ⟨Or.inr rfl, Or.inr h⟩

theorem resolveIdx_some_lt {store : List UserRecord} {e pid : String} {i : Nat}
    (h : resolveIdx store e pid = some i) : i < store.length := by
  rcases resolveIdx_some_cases h with ⟨_, hf⟩ | ⟨_, _, hf⟩
  · exact findIndex_some_lt hf
  · exact findIndex_some_lt hf

/-- The resolved index is always a valid index into the returned store. -/
theorem resolved_index_lt (now : Nat) (store : List UserRecord) (p : Profile) :
    (getOrCreateUserRecord now store p).index <
      (getOrCreateUserRecord now store p).users.length := by
  cases h : resolveIdx store (extractEmail p) (extractProfileId p) with
  | some i =>
      rw [getOrCreate_found now store p i h]
      exact resolveIdx_some_lt h
  | none =>
      rw [getOrCreate_missing now store p h]
      simp

/-- The resolved record is the entry of the returned store at the
returned index. -/
theorem resolved_user_getD (now : Nat) (store : List UserRecord) (p : Profile) :
    (getOrCreateUserRecord now store p).users.getD
        (getOrCreateUserRecord now store p).index emptyRec =
      (getOrCreateUserRecord now store p).user := by
  cases h : resolveIdx store (extractEmail p) (extractProfileId p) with
  | some i => rw [getOrCreate_found now store p i h]
  | none =>
      rw [getOrCreate_missing now store p h]
      exact getD_append_length store (freshRec now p) emptyRec

/-- When resolution did not write, the returned store is the input store. -/
theorem resolved_not_wrote {now : Nat} {store : List UserRecord} {p : Profile}
    (h : (getOrCreateUserRecord now store p).wrote = false) :
    (getOrCreateUserRecord now store p).users = store := by
  cases hr : resolveIdx store (extractEmail p) (extractProfileId p) with
  | some i => rw [getOrCreate_found now store p i hr]
  | none => rw [getOrCreate_missing now store p hr] at h ⊢; simp at h

/-- When resolution wrote, it appended the fresh record. -/
theorem resolved_wrote {now : Nat} {store : List UserRecord} {p : Profile}
    (h : (getOrCreateUserRecord now store p).wrote = true) :
    (getOrCreateUserRecord now store p).users = store ++ [freshRec now p] := by
  cases hr : resolveIdx store (extractEmail p) (extractProfileId p) with
  | some i => rw [getOrCreate_found now store p i hr] at h ⊢; simp at h
  | none => rw [getOrCreate_missing now store p hr]

/-! ### C2 — logout clears the cookie, 500 on destroy failure -/

/-- C2, counterexample: the handler in src/server.js violates the claim.
When `req.logout` succeeds and `req.session.destroy` fails, its destroy
callback ignores the error: the response is 200 (not 500) and
`res.clearCookie` is never issued. -/
theorem logout_serverjs_cookie_cex :
    ¬ logoutClaimHolds (logoutServer false true) true := by
  decide

/-- C2, amended: for the logout handler of src/unnamed/part_000, whenever
`req.logout` itself succeeds, the response clears the session cookie
regardless of whether session destruction succeeded, and a session-destroy
failure yields status 500.  (The handler in src/server.js instead ignores
destroy errors, answers 200 and never clears the cookie.) -/
theorem logout_part000_cookie_and_500 (hasSession destroyErr : Bool) :
    logoutClaimHolds (logoutPart000 false hasSession destroyErr)
      (hasSession && destroyErr) := by
  cases hasSession <;> cases destroyErr <;> decide

/-- C2, witness: the amended theorem at a concrete failing destroy. -/
theorem logout_part000_cookie_and_500_witness :
    logoutClaimHolds (logoutPart000 false true true) (true && true) :=
  logout_part000_cookie_and_500 true true

/-! ### C9 — POST /api/cart with a non-array cart persists an empty cart -/

/-- The stored cart a `cartPost` leaves for the resolved record equals the
coerced body cart. -/
theorem cartPost_stored_cart (now : Nat) (store : List UserRecord)
    (p : Profile) (body : BodyCart) :
    ((cartPost now store (some p) body).store.getD
        (getOrCreateUserRecord now store p).index emptyRec).cart =
      coerceCart body := by
  have hlt := resolved_index_lt now store p
  simp only [cartPost]
  rw [getD_set_self _ _ _ _ hlt]

/-- C9: for every authenticated session, POST /api/cart whose body cart
field is absent or not an array succeeds with 200, answers an empty cart,
persists an empty cart for the resolved record, and rewrites the store
(no error on the cart value's shape). -/
theorem cartPost_nonarray_empty (now : Nat) (store : List UserRecord)
    (p : Profile) (body : BodyCart)
    (h : ∀ items : List CartItem, body ≠ BodyCart.arrayOf items) :
    (cartPost now store (some p) body).status = 200 ∧
    (cartPost now store (some p) body).cart = [] ∧
    ((cartPost now store (some p) body).store.getD
        (getOrCreateUserRecord now store p).index emptyRec).cart = [] ∧
    (cartPost now store (some p) body).wrote = true := by
  have hc : coerceCart body = [] := by
    cases body with
    | absent => rfl
    | nonArray => rfl
    | arrayOf items => exact absurd rfl (h items)
  have hlt := resolved_index_lt now store p
  refine ⟨rfl, ?_, ?_, rfl⟩
  · simp only [cartPost]
    rw [getD_set_self _ _ _ _ hlt, hc]
  · rw [cartPost_stored_cart, hc]

/-- C9, witness: a non-array body at a concrete store and session. -/
theorem cartPost_nonarray_empty_witness :
    (cartPost 1 [aliceRec] (some aliceProfile) BodyCart.nonArray).status = 200 ∧
    (cartPost 1 [aliceRec] (some aliceProfile) BodyCart.nonArray).cart = [] ∧
    ((cartPost 1 [aliceRec] (some aliceProfile) BodyCart.nonArray).store.getD
        (getOrCreateUserRecord 1 [aliceRec] aliceProfile).index emptyRec).cart = [] ∧
    (cartPost 1 [aliceRec] (some aliceProfile) BodyCart.nonArray).wrote = true :=
  cartPost_nonarray_empty 1 [aliceRec] aliceProfile BodyCart.nonArray
    (fun _ hne => BodyCart.noConfusion hne)

/-! ### C10 — records with an empty stored password can never log in -/

/-- C10: no login can succeed "as" a record whose stored password is empty
(the shape `getOrCreateUserRecord` gives OAuth-created records): a
submitted empty password is rejected with 400 before the credential check;
the record found by a successful login always has the submitted non-empty
password, hence never an empty one; and a record with an empty password
fails the handler's equality check against any truthy submitted
password. -/
theorem oauth_record_login_impossible (store : List UserRecord)
    (email password : Option String) :
    (password = some "" → (login store email password).status = 400) ∧
    (∀ u : UserRecord, (login store email password).user = some u →
      u.password ≠ "") ∧
    (∀ u ∈ store, u.password = "" → jsTruthy password = true →
      (u.email == email.getD "" && u.password == password.getD "") = false) := by
  refine ⟨?_, ?_, ?_⟩
  · intro hpw
    subst hpw
    simp [login, jsTruthy]
  · intro u hu
    unfold login at hu
    by_cases ht : (jsTruthy email && jsTruthy password) = true
    · rw [ht] at hu
      simp only [Bool.not_true, Bool.false_eq_true, if_false] at hu
      cases hfind : store.find?
          (fun u => u.email == email.getD "" && u.password == password.getD "") with
      | none => rw [hfind] at hu; simp at hu
      | some w =>
          rw [hfind] at hu
          simp only [Option.some.injEq] at hu
          have hw := List.find?_some hfind
          simp only [Bool.and_eq_true, beq_iff_eq] at hw
          have htp : jsTruthy password = true := by
            simp only [Bool.and_eq_true] at ht
            exact ht.2
          cases password with
          | none => simp [jsTruthy] at htp
          | some s =>
              simp only [jsTruthy, ne_eq, decide_eq_true_eq] at htp
              rw [← hu]
              simp only [Option.getD_some] at hw
              rw [hw.2]
              exact htp
    · simp only [Bool.not_eq_true] at ht
      rw [ht] at hu
      simp at hu
  · intro u _ hupw htp
    cases password with
    | none => simp [jsTruthy] at htp
    | some s =>
        simp only [jsTruthy, ne_eq, decide_eq_true_eq] at htp
        simp only [Option.getD_some, Bool.and_eq_false_iff]
        right
        simp only [beq_eq_false_iff_ne, ne_eq, hupw]
        exact fun hss => htp hss.symm

/-- C10, witness: submitting the empty password against a store holding an
OAuth-created record yields 400. -/
theorem oauth_record_login_impossible_witness :
    (login [oauthRec] (some "") (some "")).status = 400 :=
  (oauth_record_login_impossible [oauthRec] (some "") (some "")).1 rfl

/-! ### C5 — registering a duplicate email -/

/-- C5, counterexample: a register request whose email equals a stored
record's email but whose name field is missing is answered 400, not 409 —
the field-presence check runs before the duplicate check. -/
theorem register_missing_name_cex :
    aliceRec.email = "alice@example.com" ∧
    (register 5 [aliceRec] none (some "alice@example.com") (some "z")).status
      = 400 ∧
    (register 5 [aliceRec] none (some "alice@example.com") (some "z")).status
      ≠ 409 := by
  refine ⟨rfl, rfl, ?_⟩
  decide

/-- C5, amended: for every register request that passes the field-presence
check (name, email and password all present and non-empty) and whose email
equals the email of a record already in the store, the response is 409 and
the store is unchanged (no record created, no file rewrite). -/
theorem register_duplicate_conflict (now : Nat) (store : List UserRecord)
    (name email password : Option String)
    (hn : jsTruthy name = true) (he : jsTruthy email = true)
    (hp : jsTruthy password = true)
    (hdup : ∃ u ∈ store, u.email = email.getD "") :
    (register now store name email password).status = 409 ∧
    (register now store name email password).store = store ∧
    (register now store name email password).wrote = false := by
  have hany : store.any (fun u => u.email == email.getD "") = true := by
    rw [List.any_eq_true]
    obtain ⟨u, hu, hue⟩ := hdup
    exact ⟨u, hu, by simpa using hue⟩
  simp [register, hn, he, hp, hany]

/-- C5, witness: a duplicate-email register with all fields present. -/
theorem register_duplicate_conflict_witness :
    (register 5 [aliceRec] (some "Al") (some "alice@example.com")
        (some "z")).status = 409 ∧
    (register 5 [aliceRec] (some "Al") (some "alice@example.com")
        (some "z")).store = [aliceRec] ∧
    (register 5 [aliceRec] (some "Al") (some "alice@example.com")
        (some "z")).wrote = false :=
  register_duplicate_conflict 5 [aliceRec] (some "Al")
    (some "alice@example.com") (some "z") (by decide) (by decide) (by decide)
    ⟨aliceRec, by simp, by decide⟩

/-! ### C4 — login succeeds exactly on an exact credential match -/

/-- C4, counterexample to the claim as stated: both body fields are
present (hence "non-missing") but empty, and the store holds a record —
the shape OAuth creation leaves — matching both fields by exact string
equality; the claimed iff demands 200, yet the handler rejects empty
fields as missing and answers 400. -/
theorem login_emptyfields_cex :
    oauthRec ∈ [oauthRec] ∧
    oauthRec.email = (some "" : Option String).getD "x" ∧
    oauthRec.password = (some "" : Option String).getD "x" ∧
    (login [oauthRec] (some "") (some "")).status = 400 ∧
    (login [oauthRec] (some "") (some "")).status ≠ 200 := by
  refine ⟨by simp, rfl, rfl, rfl, ?_⟩
  decide

/-- C4, amended: POST /api/login returns 200 iff both body fields are
present and non-empty and some stored record matches both by exact string
equality; it returns 400 iff either field is missing or empty, and 401 iff
both fields are present and non-empty but no record matches.  In
particular any mismatch never yields 200. -/
theorem login_status_characterization (store : List UserRecord)
    (email password : Option String) :
    ((login store email password).status = 200 ↔
      jsTruthy email = true ∧ jsTruthy password = true ∧
        ∃ u ∈ store, u.email = email.getD "" ∧ u.password = password.getD "") ∧
    ((login store email password).status = 400 ↔
      ¬(jsTruthy email = true ∧ jsTruthy password = true)) ∧
    ((login store email password).status = 401 ↔
      jsTruthy email = true ∧ jsTruthy password = true ∧
        ¬∃ u ∈ store, u.email = email.getD "" ∧ u.password = password.getD "") := by
  by_cases ht : (jsTruthy email && jsTruthy password) = true
  · have ht' : jsTruthy email = true ∧ jsTruthy password = true := by
      simpa [Bool.and_eq_true] using ht
    cases hfind : store.find?
        (fun u => u.email == email.getD "" && u.password == password.getD "") with
    | some w =>
        have hw := List.find?_some hfind
        have hmem := List.mem_of_find?_eq_some hfind
        simp only [Bool.and_eq_true, beq_iff_eq] at hw
        have hex : ∃ u ∈ store,
            u.email = email.getD "" ∧ u.password = password.getD "" :=
          ⟨w, hmem, hw.1, hw.2⟩
        refine ⟨?_, ?_, ?_⟩
        · simp [login, ht, hfind, ht', hex]
        · simp [login, ht, hfind, ht']
        · simp [login, ht, hfind, ht', hex]
    | none =>
        have hnone : ¬∃ u ∈ store,
            u.email = email.getD "" ∧ u.password = password.getD "" := by
          rintro ⟨u, hu, h1, h2⟩
          have := List.find?_eq_none.mp hfind u hu
          simp [h1, h2] at this
        refine ⟨?_, ?_, ?_⟩
        · simp [login, ht, hfind, hnone]
        · simp [login, ht, hfind, ht']
        · simp [login, ht, hfind, ht', hnone]
  · have ht' : ¬(jsTruthy email = true ∧ jsTruthy password = true) := by
      simpa [Bool.and_eq_true] using ht
    simp only [Bool.not_eq_true] at ht
    have hlg : login store email password = { status := 400, user := none } := by
      simp [login, ht]
    rw [hlg]
    refine ⟨?_, ?_, ?_⟩
    · constructor
      · intro h; simp at h
      · rintro ⟨hA, hB, -⟩; exact absurd ⟨hA, hB⟩ ht'
    · simpa using ht'
    · constructor
      · intro h; simp at h
      · rintro ⟨hA, hB, -⟩; exact absurd ⟨hA, hB⟩ ht'

/-- C4, witness: the characterization at a concrete store and request. -/
theorem login_status_characterization_witness :
    ((login [aliceRec] (some "alice@example.com") (some "pw1")).status = 200 ↔
      jsTruthy (some "alice@example.com") = true ∧
        jsTruthy (some "pw1") = true ∧
        ∃ u ∈ [aliceRec],
          u.email = (some "alice@example.com" : Option String).getD "" ∧
            u.password = (some "pw1" : Option String).getD "") ∧
    ((login [aliceRec] (some "alice@example.com") (some "pw1")).status = 400 ↔
      ¬(jsTruthy (some "alice@example.com") = true ∧
          jsTruthy (some "pw1") = true)) ∧
    ((login [aliceRec] (some "alice@example.com") (some "pw1")).status = 401 ↔
      jsTruthy (some "alice@example.com") = true ∧
        jsTruthy (some "pw1") = true ∧
        ¬∃ u ∈ [aliceRec],
          u.email = (some "alice@example.com" : Option String).getD "" ∧
            u.password = (some "pw1" : Option String).getD "") :=
  login_status_characterization [aliceRec] (some "alice@example.com")
    (some "pw1")

/-! ### C1 — checkout on an empty cart -/

/-- C1, counterexample to the claim as stated: a first-time OAuth session
(no record in the store yet) resolves to a freshly created record with an
empty cart; checkout does answer 400, but `getOrCreateUserRecord` has
already appended a record and rewritten the file, so the store is not left
unchanged. -/
theorem checkout_emptyCart_creates_record_cex :
    (getOrCreateUserRecord 7 [] eveProfile).user.cart = [] ∧
    (checkout 7 [] (some eveProfile)).status = 400 ∧
    (checkout 7 [] (some eveProfile)).wrote = true ∧
    (checkout 7 [] (some eveProfile)).store ≠ [] := by
  refine ⟨rfl, rfl, rfl, ?_⟩
  decide

/-- C1, amended: for every authenticated session whose identity resolves
to a record already present in the store (resolution did not create one)
and whose cart is empty, POST /api/checkout answers 400, leaves the store
exactly as it was, and does not rewrite the file. -/
theorem checkout_emptyCart_noMutation (now : Nat) (store : List UserRecord)
    (p : Profile)
    (hres : (getOrCreateUserRecord now store p).wrote = false)
    (hcart : (getOrCreateUserRecord now store p).user.cart = []) :
    (checkout now store (some p)).status = 400 ∧
    (checkout now store (some p)).store = store ∧
    (checkout now store (some p)).wrote = false := by
  have hu := resolved_user_getD now store p
  have hnw := resolved_not_wrote hres
  simp only [checkout]
  rw [hu, hcart]
  simp [hnw, hres]

/-- C1, witness: an existing record with an empty cart. -/
theorem checkout_emptyCart_noMutation_witness :
    (checkout 3 [aliceRec] (some aliceProfile)).status = 400 ∧
    (checkout 3 [aliceRec] (some aliceProfile)).store = [aliceRec] ∧
    (checkout 3 [aliceRec] (some aliceProfile)).wrote = false :=
  checkout_emptyCart_noMutation 3 [aliceRec] aliceProfile (by decide) (by decide)

/-! ### C7 — checkout on a non-empty cart -/

/-- C7: for every authenticated session whose resolved record has a
non-empty cart, POST /api/checkout answers 200 with the order id
"ORD-" followed by the decimal digits of the current timestamp, rewrites
the store, and the record's persisted cart is empty afterwards. -/
theorem checkout_nonempty_order (now : Nat) (store : List UserRecord)
    (p : Profile)
    (hcart : (getOrCreateUserRecord now store p).user.cart ≠ []) :
    (checkout now store (some p)).status = 200 ∧
    (checkout now store (some p)).orderId = some ("ORD-" ++ toString now) ∧
    ((checkout now store (some p)).store.getD
        (getOrCreateUserRecord now store p).index emptyRec).cart = [] ∧
    (checkout now store (some p)).wrote = true := by
  have hu := resolved_user_getD now store p
  have hlt := resolved_index_lt now store p
  have hne : ((getOrCreateUserRecord now store p).users.getD
      (getOrCreateUserRecord now store p).index emptyRec).cart.isEmpty = false := by
    rw [hu]
    exact List.isEmpty_eq_false_iff_exists_mem.mpr
      (List.exists_mem_of_ne_nil _ hcart)
  simp only [checkout, hne, Bool.false_eq_true, if_false]
  refine ⟨trivial, trivial, ?_, trivial⟩
  rw [getD_set_self _ _ _ _ hlt]

/-- C7, witness: Bob checks out a three-item cart at timestamp 42. -/
theorem checkout_nonempty_order_witness :
    (checkout 42 [aliceRec, bobRec] (some bobProfile)).status = 200 ∧
    (checkout 42 [aliceRec, bobRec] (some bobProfile)).orderId =
      some ("ORD-" ++ toString 42) ∧
    ((checkout 42 [aliceRec, bobRec] (some bobProfile)).store.getD
        (getOrCreateUserRecord 42 [aliceRec, bobRec] bobProfile).index
        emptyRec).cart = [] ∧
    (checkout 42 [aliceRec, bobRec] (some bobProfile)).wrote = true :=
  checkout_nonempty_order 42 [aliceRec, bobRec] bobProfile (by decide)

/-! ### C3 — preservation of the email-uniqueness invariant -/

/-- Replacing one record's cart leaves the list of emails unchanged. -/
theorem map_email_set (l : List UserRecord) (i : Nat) (c : List CartItem) :
    (l.set i { l.getD i emptyRec with cart := c }).map (fun u => u.email) =
      l.map (fun u => u.email) := by
  induction l generalizing i with
  | nil => simp
  | cons head tail ih =>
    cases i with
    | zero => simp [List.getD]
    | succ n =>
        simp only [List.getD] at *
        simp only [List.set, List.map_cons, List.cons.injEq]
        exact ⟨trivial, by simpa [List.getD] using ih n⟩

/-- Appending a record whose email collides with no stored non-empty email
preserves uniqueness. -/
theorem emailUnique_append (l : List UserRecord) (v : UserRecord)
    (h : emailUnique l)
    (hv : ∀ u ∈ l, u.email ≠ "" → u.email ≠ v.email) :
    emailUnique (l ++ [v]) := by
  unfold emailUnique at h ⊢
  rw [List.map_append, List.pairwise_append]
  refine ⟨h, by simp, ?_⟩
  intro a ha b hb
  simp only [List.map_cons, List.map_nil, List.mem_singleton] at hb
  subst hb
  simp only [List.mem_map] at ha
  obtain ⟨u, hu, rfl⟩ := ha
  exact hv u hu

/-- Identity resolution preserves the uniqueness invariant: a record is
only created when the extracted email is empty or matches no stored
record. -/
theorem getOrCreate_emailUnique (now : Nat) (store : List UserRecord)
    (p : Profile) (h : emailUnique store) :
    emailUnique (getOrCreateUserRecord now store p).users := by
  cases hr : resolveIdx store (extractEmail p) (extractProfileId p) with
  | some i => rw [getOrCreate_found now store p i hr]; exact h
  | none =>
      rw [getOrCreate_missing now store p hr]
      refine emailUnique_append store (freshRec now p) h ?_
      intro u hu hune
      rcases (resolveIdx_none_cases hr).1 with he | hfi
      · intro hcontr
        rw [hcontr] at hune
        exact hune (by simp [freshRec, he])
      · rw [findIndex_eq_none_iff] at hfi
        have := hfi u hu
        simp only [beq_eq_false_iff_ne, ne_eq] at this
        simpa [freshRec] using this

/-- Cart replacement and checkout only touch the `cart` field, so the
emails — and with them the invariant — survive. -/
theorem emailUnique_set_cart (l : List UserRecord) (i : Nat)
    (c : List CartItem) (h : emailUnique l) :
    emailUnique (l.set i { l.getD i emptyRec with cart := c }) := by
  unfold emailUnique at h ⊢
  rw [map_email_set]
  exact h

/-- C3: every single sequential operation — register, login, cart get
(resolution), cart replace, checkout — preserves the invariant that each
non-empty email occurs in at most one record. -/
theorem op_preserves_emailUnique (store : List UserRecord) (op : Op)
    (h : emailUnique store) : emailUnique (applyOp store op) := by
  cases op with
  | opRegister now name email password =>
      simp only [applyOp, register]
      by_cases hf : (jsTruthy name && jsTruthy email && jsTruthy password) = true
      · rw [hf]
        by_cases hd : store.any (fun u => u.email == email.getD "") = true
        · simp only [hd, Bool.not_true, Bool.false_eq_true, if_false, if_true]
          exact h
        · simp only [Bool.not_eq_true] at hd
          simp only [hd, Bool.not_true, Bool.false_eq_true, if_false]
          refine emailUnique_append store _ h ?_
          intro u hu _
          have := List.any_eq_false.mp hd u hu
          simpa using this
      · simp only [Bool.not_eq_true] at hf
        simp only [hf, Bool.not_false, if_true]
        exact h
  | opLogin email password => exact h
  | opCartGet now p =>
      simp only [applyOp, cartGet]
      exact getOrCreate_emailUnique now store p h
  | opCartPost now p body =>
      simp only [applyOp, cartPost]
      exact emailUnique_set_cart _ _ _ (getOrCreate_emailUnique now store p h)
  | opCheckout now p =>
      simp only [applyOp, checkout]
      by_cases hc : ((getOrCreateUserRecord now store p).users.getD
          (getOrCreateUserRecord now store p).index emptyRec).cart.isEmpty = true
      · simp only [hc, if_true]
        exact getOrCreate_emailUnique now store p h
      · simp only [Bool.not_eq_true] at hc
        simp only [hc, Bool.false_eq_true, if_false]
        exact emailUnique_set_cart _ _ _ (getOrCreate_emailUnique now store p h)

/-- C3, witness: a register against a store that satisfies the invariant. -/
theorem op_preserves_emailUnique_witness :
    emailUnique (applyOp [aliceRec, oauthRec]
      (Op.opRegister 5 (some "Bob") (some "bob@example.com") (some "pw2"))) :=
  op_preserves_emailUnique [aliceRec, oauthRec]
    (Op.opRegister 5 (some "Bob") (some "bob@example.com") (some "pw2"))
    (by decide)

/-! ### C8 — cart round-trip -/

/-- Index resolution only looks at emails and ids, so replacing one
record's cart does not change it. -/
theorem resolveIdx_set_cart (l : List UserRecord) (i : Nat)
    (c : List CartItem) (e pid : String) :
    resolveIdx (l.set i { l.getD i emptyRec with cart := c }) e pid =
      resolveIdx l e pid := by
  unfold resolveIdx
  rw [findIndex_set (fun u => u.email == e) l i _ (by simp),
      findIndex_set (fun u => u.id == pid) l i _ (by simp)]

/-- After a failed resolution appended the fresh record, resolving the
same profile again finds exactly that record (given a truthy profile id;
with a truthy email the email search finds it first). -/
theorem resolveIdx_append_fresh (store : List UserRecord) (now : Nat)
    (p : Profile)
    (hnone : resolveIdx store (extractEmail p) (extractProfileId p) = none)
    (hid : extractProfileId p ≠ "") :
    resolveIdx (store ++ [freshRec now p]) (extractEmail p)
      (extractProfileId p) = some store.length := by
  obtain ⟨hE, hP⟩ := resolveIdx_none_cases hnone
  unfold resolveIdx
  by_cases he : extractEmail p = ""
  · have hPn : findIndex (fun u => u.id == extractProfileId p) store = none := by
      rcases hP with h | h
      · exact absurd h hid
      · exact h
    have hfr : findIndex (fun u => u.id == extractProfileId p)
        (store ++ [freshRec now p]) = some store.length := by
      rw [findIndex_append_singleton, hPn]
      simp [freshRec, hid]
    simp [he, hid, hfr]
  · have hEn : findIndex (fun u => u.email == extractEmail p) store = none := by
      rcases hE with h | h
      · exact absurd h he
      · exact h
    have hfr : findIndex (fun u => u.email == extractEmail p)
        (store ++ [freshRec now p]) = some store.length := by
      rw [findIndex_append_singleton, hEn]
      simp [freshRec]
    simp [he, hfr]

/-- C8: replacing the cart with an array `c` and then reading the cart in
a later request of the same session returns exactly `c`.  The session's
profile carries a truthy provider id, as every identity established by the
server does (OAuth profiles have an id; local sessions embed the stored
record). -/
theorem cart_roundtrip (now1 now2 : Nat) (store : List UserRecord)
    (p : Profile) (items : List CartItem)
    (hid : extractProfileId p ≠ "") :
    (cartPost now1 store (some p) (BodyCart.arrayOf items)).status = 200 ∧
    (cartGet now2 (cartPost now1 store (some p) (BodyCart.arrayOf items)).store
      (some p)).status = 200 ∧
    (cartGet now2 (cartPost now1 store (some p) (BodyCart.arrayOf items)).store
      (some p)).cart = items := by
  refine ⟨rfl, rfl, ?_⟩
  cases hres : resolveIdx store (extractEmail p) (extractProfileId p) with
  | some i0 =>
      have hlt := resolveIdx_some_lt hres
      have hpost : (cartPost now1 store (some p) (BodyCart.arrayOf items)).store =
          store.set i0 { store.getD i0 emptyRec with cart := items } := by
        simp [cartPost, getOrCreate_found now1 store p i0 hres, coerceCart]
      rw [hpost]
      have hres2 : resolveIdx
          (store.set i0 { store.getD i0 emptyRec with cart := items })
          (extractEmail p) (extractProfileId p) = some i0 := by
        rw [resolveIdx_set_cart]
        exact hres
      simp only [cartGet,
        getOrCreate_found now2
          (store.set i0 { store.getD i0 emptyRec with cart := items }) p i0 hres2]
      rw [getD_set_self _ _ _ _ hlt]
  | none =>
      have hpost : (cartPost now1 store (some p) (BodyCart.arrayOf items)).store =
          (store ++ [freshRec now1 p]).set store.length
            { (store ++ [freshRec now1 p]).getD store.length emptyRec with
                cart := items } := by
        simp [cartPost, getOrCreate_missing now1 store p hres, coerceCart]
      rw [hpost]
      have hres2 : resolveIdx
          ((store ++ [freshRec now1 p]).set store.length
            { (store ++ [freshRec now1 p]).getD store.length emptyRec with
                cart := items })
          (extractEmail p) (extractProfileId p) = some store.length := by
        rw [resolveIdx_set_cart]
        exact resolveIdx_append_fresh store now1 p hres hid
      simp only [cartGet, getOrCreate_found now2 _ p store.length hres2]
      rw [getD_set_self _ _ _ _ (by simp)]

/-- C8, witness: a round-trip for a first-time OAuth session over an
initially unrelated store. -/
theorem cart_roundtrip_witness :
    (cartPost 10 [aliceRec] (some eveProfile)
        (BodyCart.arrayOf ["skuX", "skuY"])).status = 200 ∧
    (cartGet 11 (cartPost 10 [aliceRec] (some eveProfile)
        (BodyCart.arrayOf ["skuX", "skuY"])).store (some eveProfile)).status
      = 200 ∧
    (cartGet 11 (cartPost 10 [aliceRec] (some eveProfile)
        (BodyCart.arrayOf ["skuX", "skuY"])).store (some eveProfile)).cart
      = ["skuX", "skuY"] :=
  cart_roundtrip 10 11 [aliceRec] eveProfile ["skuX", "skuY"] (by decide)

/-! ### C6 — full characterization of identity-to-record resolution -/

theorem getD_mem (l : List UserRecord) (i : Nat) (d : UserRecord)
    (h : i < l.length) : l.getD i d ∈ l := by
  induction l generalizing i with
  | nil => simp at h
  | cons head tail ih =>
    cases i with
    | zero => simp
    | succ n =>
        have hn : n < tail.length := by simpa using h
        exact List.mem_cons_of_mem _ (by simpa [List.getD] using ih n hn)

/-- `findIndex` returns exactly the first satisfying index. -/
theorem findIndex_of_first {pred : UserRecord → Bool} {l : List UserRecord}
    {i : Nat} (h1 : i < l.length) (h2 : pred (l.getD i emptyRec) = true)
    (h3 : ∀ j, j < i → pred (l.getD j emptyRec) = false) :
    findIndex pred l = some i := by
  cases hf : findIndex pred l with
  | none =>
      rw [findIndex_eq_none_iff] at hf
      have := hf (l.getD i emptyRec) (getD_mem l i emptyRec h1)
      rw [h2] at this
      exact absurd this (by simp)
  | some k =>
      rcases Nat.lt_trichotomy k i with hlt | heq | hgt
      · have hk := findIndex_some_pred hf
        rw [h3 k hlt] at hk
        exact absurd hk (by simp)
      · rw [heq]
      · have hi := findIndex_some_first hf i hgt
        rw [h2] at hi
        exact absurd hi (by simp)

/-- C6: `getOrCreateUserRecord` on a session identity (i) always returns
the full store together with the resolved record and its valid index;
(ii) when the extracted email is non-empty and some record carries it, the
first such record is returned, store untouched; (iii) only when the email
search fails (empty or unmatched email) and the extracted profile id is
non-empty and matches, the first record with that stringified id is
returned, store untouched; (iv) when neither matches, the synthesized
record — empty cart, empty password, the extracted email, name defaulting
to "User" when displayName, name and username are all missing or empty —
is appended at the end, persisted, and returned with its index. -/
theorem resolveSession_spec (now : Nat) (store : List UserRecord)
    (s : SessionIdentity) :
    ((resolveSession now store s).index <
        (resolveSession now store s).users.length ∧
      (resolveSession now store s).users.getD
          (resolveSession now store s).index emptyRec =
        (resolveSession now store s).user) ∧
    (∀ i : Nat, extractEmail s.profile ≠ "" →
      firstMatch (fun u => u.email == extractEmail s.profile) store i →
      resolveSession now store s =
        { user := store.getD i emptyRec, users := store, index := i,
          wrote := false }) ∧
    (∀ i : Nat,
      (extractEmail s.profile = "" ∨
        ∀ u ∈ store, u.email ≠ extractEmail s.profile) →
      extractProfileId s.profile ≠ "" →
      firstMatch (fun u => u.id == extractProfileId s.profile) store i →
      resolveSession now store s =
        { user := store.getD i emptyRec, users := store, index := i,
          wrote := false }) ∧
    ((extractEmail s.profile = "" ∨
        ∀ u ∈ store, u.email ≠ extractEmail s.profile) →
      (extractProfileId s.profile = "" ∨
        ∀ u ∈ store, u.id ≠ extractProfileId s.profile) →
      resolveSession now store s =
        { user := freshRec now s.profile,
          users := store ++ [freshRec now s.profile], index := store.length,
          wrote := true } ∧
      (freshRec now s.profile).cart = [] ∧
      (freshRec now s.profile).password = "" ∧
      (freshRec now s.profile).email = extractEmail s.profile ∧
      (jsTruthy s.profile.displayName = false → jsTruthy s.profile.name = false →
        jsTruthy s.profile.username = false →
        (freshRec now s.profile).name = "User")) := by
  refine ⟨⟨resolved_index_lt now store s.profile,
    resolved_user_getD now store s.profile⟩, ?_, ?_, ?_⟩
  · intro i he hfm
    obtain ⟨hlt, hp, hfirst⟩ := hfm
    have hfi := @findIndex_of_first
      (fun u => u.email == extractEmail s.profile) store i hlt hp hfirst
    have hres : resolveIdx store (extractEmail s.profile)
        (extractProfileId s.profile) = some i := by
      unfold resolveIdx
      simp [he, hfi]
    exact getOrCreate_found now store s.profile i hres
  · intro i hEfail hid hfm
    obtain ⟨hlt, hp, hfirst⟩ := hfm
    have hfi := @findIndex_of_first
      (fun u => u.id == extractProfileId s.profile) store i hlt hp hfirst
    have hres : resolveIdx store (extractEmail s.profile)
        (extractProfileId s.profile) = some i := by
      unfold resolveIdx
      rcases hEfail with he | hnm
      · simp [he, hid, hfi]
      · have hEn : findIndex
            (fun u => u.email == extractEmail s.profile) store = none := by
          rw [findIndex_eq_none_iff]
          intro u hu
          simpa using hnm u hu
        simp [hEn, hid, hfi]
    exact getOrCreate_found now store s.profile i hres
  · intro hEfail hPfail
    have hEn : (if extractEmail s.profile ≠ "" then
        findIndex (fun u => u.email == extractEmail s.profile) store
        else none) = none := by
      rcases hEfail with he | hnm
      · simp [he]
      · have : findIndex (fun u => u.email == extractEmail s.profile) store
            = none := by
          rw [findIndex_eq_none_iff]
          intro u hu
          simpa using hnm u hu
        simp [this]
    have hPn : (if extractProfileId s.profile ≠ "" then
        findIndex (fun u => u.id == extractProfileId s.profile) store
        else none) = none := by
      rcases hPfail with hp | hnm
      · simp [hp]
      · have : findIndex (fun u => u.id == extractProfileId s.profile) store
            = none := by
          rw [findIndex_eq_none_iff]
          intro u hu
          simpa using hnm u hu
        simp [this]
    have hres : resolveIdx store (extractEmail s.profile)
        (extractProfileId s.profile) = none := by
      unfold resolveIdx
      rw [hEn, hPn]
    refine ⟨getOrCreate_missing now store s.profile hres, rfl, rfl, rfl, ?_⟩
    intro hd hn hu
    simp [freshRec, extractName, firstTruthy, hd, hn, hu]

/-- C6, witness: a fresh OAuth identity over an empty store hits the
creation branch. -/
theorem resolveSession_spec_witness :
    resolveSession 3 [] { provider := "google", profile := eveProfile } =
      { user := freshRec 3 eveProfile, users := [] ++ [freshRec 3 eveProfile],
        index := List.length ([] : List UserRecord), wrote := true } :=
  ((resolveSession_spec 3 []
      { provider := "google", profile := eveProfile }).2.2.2
    (Or.inr (by simp)) (Or.inr (by simp))).1

end TkChillShop
